import Mathlib

/-!
Verification development for the rs485 driver core (src/line.py, src/adam.py,
src/piv.py).  Bytes are modelled as `Nat` (with explicit `< 256` bounds where
the code relies on byte range), byte strings as `List Nat`, and fallible
operations as `Option`/`Except` or dedicated result inductives.  Real time is
abstracted: the polling loop's clock readings and the per-attempt chunks
delivered by the raw transport are explicit parameters.
-/

namespace RS485

/-- The three reserved control bytes of the Piv binary protocol
(`Piv.escapedSymbols` in src/piv.py): START = 0xAA, STOP = 0xAB, SHIFT = 0xAC. -/
def reservedBytes : List Nat := [0xAA, 0xAB, 0xAC]

/-- `calcControl` from src/piv.py: running XOR of all bytes, starting at 0. -/
def calcControl (data : List Nat) : Nat := data.foldl (fun rv b => rv ^^^ b) 0

/-- One step of the escaping loop in `Piv.send` (src/piv.py lines 52-58):
a reserved byte becomes SHIFT followed by `b - START`, others pass through. -/
def escapeByte (b : Nat) : List Nat :=
  if b ∈ reservedBytes then [0xAC, b - 0xAA] else [b]

/-- The escaping loop of `Piv.send` (src/piv.py lines 52-58) over a whole body. -/
def escapeBody : List Nat → List Nat
  | [] => []
  | b :: rest => escapeByte b ++ escapeBody rest

/-- `Piv.send` (src/piv.py lines 38-60): body is address, payload, then the
XOR control byte; the wire frame is START, the escaped body, STOP. -/
def pivSend (address : Nat) (data : List Nat) : List Nat :=
  (0xAA :: escapeBody ((address :: data) ++ [calcControl (address :: data)])) ++ [0xAB]

/-- The unescaping walk of `Piv.receive` (src/piv.py lines 67-81), with the
`shifted` flag as second argument; `none` models `BadPivPacket("Invalid shift")`.
A dangling SHIFT at the end of input is silently dropped, as in the source. -/
def unescape : List Nat → Bool → Option (List Nat)
  | [], _ => some []
  | b :: rest, shifted =>
    if b = 0xAC then
      if shifted then none else unescape rest true
    else if shifted then
      if 255 < b + 0xAA ∨ b ∈ reservedBytes then none
      else (unescape rest false).map (fun r => (b + 0xAA) :: r)
    else (unescape rest false).map (fun r => b :: r)

/-- Outcome of the decode part of `Piv.receive`.  `crash` models the uncaught
IndexError paths (`converted[-1]` or `body[0]` on an empty sequence), which are
not `BadPivPacket` errors. -/
inductive PivResult where
  | ok (payload : List Nat)
  | tooShort
  | invalidShift
  | badControl
  | badAddress
  | crash
deriving DecidableEq

/-- `Piv.receive` (src/piv.py lines 62-88) applied to one frame already read
with STOP as delimiter: length check, unescaping walk, control-sum check
against the last reconstructed byte, then address check on the first byte. -/
def pivReceive (address : Nat) (frame : List Nat) : PivResult :=
  if frame.length < 2 then .tooShort
  else
    match unescape frame false with
    | none => .invalidShift
    | some [] => .crash
    | some (c :: cs) =>
      if calcControl ((c :: cs).dropLast) ≠ (c :: cs).getLastD 0 then .badControl
      else
        match (c :: cs).dropLast with
        | [] => .crash
        | a :: rest => if a ≠ address then .badAddress else .ok rest

theorem xor_lt_256 {a b : Nat} (ha : a < 256) (hb : b < 256) : a ^^^ b < 256 := by
  have h := Nat.xor_lt_two_pow (n := 8) ha hb
  simpa using h

theorem foldl_xor_lt (l : List Nat) :
    ∀ acc, acc < 256 → (∀ b ∈ l, b < 256) →
      l.foldl (fun rv b => rv ^^^ b) acc < 256 := by
  induction l with
  | nil => intro acc hacc _; simpa using hacc
  | cons b t ih =>
    intro acc hacc hl
    simp only [List.foldl_cons]
    exact ih (acc ^^^ b) (xor_lt_256 hacc (hl b (by simp)))
      (fun x hx => hl x (by simp [hx]))

theorem calcControl_lt (l : List Nat) (h : ∀ b ∈ l, b < 256) : calcControl l < 256 :=
  foldl_xor_lt l 0 (by omega) h

theorem unescape_escapeBody (l : List Nat) (h : ∀ b ∈ l, b < 256) :
    unescape (escapeBody l) false = some l := by
  induction l with
  | nil => rfl
  | cons b t ih =>
    have hb : b < 256 := h b (by simp)
    have ht : unescape (escapeBody t) false = some t :=
      ih (fun x hx => h x (by simp [hx]))
    by_cases hres : b ∈ reservedBytes
    · have hcases : b = 0xAA ∨ b = 0xAB ∨ b = 0xAC := by
        simpa [reservedBytes] using hres
      rcases hcases with rfl | rfl | rfl <;>
        simp [escapeBody, escapeByte, reservedBytes, unescape, ht]
    · have hb172 : b ≠ 0xAC := by
        intro hcontra; exact hres (by simp [reservedBytes, hcontra])
      simp [escapeBody, escapeByte, hres, unescape, hb172, ht]

theorem escapeBody_length (l : List Nat) :
    l.length ≤ (escapeBody l).length := by
  induction l with
  | nil => simp [escapeBody]
  | cons b t ih =>
    simp only [escapeBody, List.length_append, List.length_cons]
    have h1 : 1 ≤ (escapeByte b).length := by
      unfold escapeByte; split <;> simp
    omega

theorem getLastD_concat (l : List Nat) (a d : Nat) : (l ++ [a]).getLastD d = a := by
  induction l generalizing d with
  | nil => rfl
  | cons b t ih => rw [List.cons_append, List.getLastD_cons]; exact ih b

/-- C1: for every address in [0,255] and every payload of bytes (reserved bytes
0xAA/0xAB/0xAC allowed anywhere, any number of times), encoding with
`Piv.send`'s escaping/framing and decoding the bytes between the START byte
and the STOP delimiter with `Piv.receive`'s unescaping and validation, at the
same expected address, succeeds and returns exactly the original payload. -/
theorem piv_roundtrip (address : Nat) (data : List Nat)
    (haddr : address < 256) (hdata : ∀ b ∈ data, b < 256) :
    pivReceive address (((pivSend address data).drop 1).dropLast) = PivResult.ok data := by
  have hbytes : ∀ b ∈ address :: data, b < 256 := by
    intro b hb
    rcases List.mem_cons.1 hb with rfl | h
    · exact haddr
    · exact hdata _ h
  have hc : calcControl (address :: data) < 256 := calcControl_lt _ hbytes
  have hbody : ∀ b ∈ (address :: data) ++ [calcControl (address :: data)], b < 256 := by
    intro b hb
    rcases List.mem_append.1 hb with h1 | h2
    · exact hbytes _ h1
    · have : b = calcControl (address :: data) := by simpa using h2
      omega
  have hframe : ((pivSend address data).drop 1).dropLast
      = escapeBody ((address :: data) ++ [calcControl (address :: data)]) := by
    simp only [pivSend, List.cons_append, List.drop_succ_cons, List.drop_zero]
    exact List.dropLast_concat
  have hlen : ¬ (escapeBody ((address :: data) ++ [calcControl (address :: data)])).length < 2 := by
    have h1 := escapeBody_length ((address :: data) ++ [calcControl (address :: data)])
    simp only [List.length_append, List.length_cons] at h1
    omega
  have hun2 : unescape (escapeBody ((address :: data) ++ [calcControl (address :: data)])) false
      = some (address :: (data ++ [calcControl (address :: data)])) :=
    unescape_escapeBody _ hbody
  have hdrop : (address :: (data ++ [calcControl (address :: data)])).dropLast
      = address :: data := by
    have h : ((address :: data) ++ [calcControl (address :: data)]).dropLast
        = address :: data := List.dropLast_concat
    exact h
  have hlast : (address :: (data ++ [calcControl (address :: data)])).getLastD 0
      = calcControl (address :: data) := by
    have h : ((address :: data) ++ [calcControl (address :: data)]).getLastD 0
        = calcControl (address :: data) := getLastD_concat (address :: data) _ 0
    exact h
  rw [hframe]
  unfold pivReceive
  rw [if_neg hlen]
  simp only [hun2, hdrop, hlast]
  simp

/-- Witness for C1 at address 5 with a payload containing every reserved byte. -/
theorem piv_roundtrip_witness :
    pivReceive 5 (((pivSend 5 [0xAA, 1, 0xAB, 0xAC]).drop 1).dropLast)
      = PivResult.ok [0xAA, 1, 0xAB, 0xAC] :=
  piv_roundtrip 5 [0xAA, 1, 0xAB, 0xAC] (by omega) (by decide)

theorem pivReceive_eq (address : Nat) (frame : List Nat) (c : Nat) (cs : List Nat)
    (hlen : ¬ frame.length < 2) (hun : unescape frame false = some (c :: cs)) :
    pivReceive address frame =
      (if calcControl ((c :: cs).dropLast) ≠ (c :: cs).getLastD 0 then PivResult.badControl
       else match (c :: cs).dropLast with
            | [] => PivResult.crash
            | a :: rest => if a ≠ address then PivResult.badAddress else PivResult.ok rest) := by
  unfold pivReceive
  rw [if_neg hlen, hun]

theorem unescape_cons_shift (rest : List Nat) :
    unescape (0xAC :: rest) false = unescape rest true := by
  simp [unescape]

theorem unescape_cons_shift_bad (rest : List Nat) :
    unescape (0xAC :: rest) true = none := by
  simp [unescape]

theorem unescape_cons_plain (b : Nat) (rest : List Nat) (hb : b ≠ 0xAC) :
    unescape (b :: rest) false = (unescape rest false).map (fun r => b :: r) := by
  simp [unescape, hb]

theorem unescape_cons_esc (b : Nat) (rest : List Nat) (hb : b ≠ 0xAC)
    (hc : ¬ (255 < b + 0xAA ∨ b ∈ reservedBytes)) :
    unescape (b :: rest) true = (unescape rest false).map (fun r => (b + 0xAA) :: r) := by
  simp [unescape, hb, hc]

theorem unescape_cons_esc_bad (b : Nat) (rest : List Nat) (hb : b ≠ 0xAC)
    (hc : 255 < b + 0xAA ∨ b ∈ reservedBytes) :
    unescape (b :: rest) true = none := by
  simp [unescape, hb, hc]

theorem unescape_shift_overflow (b : Nat) (hb : 255 < b + 0xAA) :
    ∀ (p q : List Nat) (s : Bool), unescape (p ++ 0xAC :: b :: q) s = none := by
  intro p
  induction p with
  | nil =>
    intro q s
    by_cases hb172 : b = 0xAC
    · subst hb172; cases s <;> simp [unescape]
    · cases s <;> simp [unescape, hb172, hb]
  | cons x t ih =>
    intro q s
    rw [List.cons_append]
    simp only [unescape]
    split
    · split
      · rfl
      · exact ih q true
    · split
      · split
        · rfl
        · rw [ih q false]; rfl
      · rw [ih q false]; rfl

/-- C4 (amended): `Piv.receive` fails with a packet error when the frame holds
two consecutive SHIFT bytes; when a SHIFT is followed by a raw byte `b` with
`b + 0xAA > 255` — in particular a literal reserved byte after a SHIFT (the
code checks the raw following byte, not the reconstructed value, and the
reconstructed values 0xAA/0xAB/0xAC arising from offsets 0/1/2 are the valid
escapes); when the final reconstructed byte differs from the XOR of all
preceding reconstructed bytes; or when the first reconstructed byte differs
from the expected address while the control check passed. -/
theorem piv_decode_rejections :
    (∀ (address : Nat) (p q : List Nat),
        pivReceive address (p ++ 0xAC :: 0xAC :: q) = PivResult.invalidShift) ∧
    (∀ (address b : Nat) (p q : List Nat), 255 < b + 0xAA →
        pivReceive address (p ++ 0xAC :: b :: q) = PivResult.invalidShift) ∧
    (∀ (address : Nat) (frame : List Nat) (c : Nat) (cs : List Nat),
        ¬ frame.length < 2 →
        unescape frame false = some (c :: cs) →
        calcControl ((c :: cs).dropLast) ≠ (c :: cs).getLastD 0 →
        pivReceive address frame = PivResult.badControl) ∧
    (∀ (address : Nat) (frame : List Nat) (c a : Nat) (cs rest : List Nat),
        ¬ frame.length < 2 →
        unescape frame false = some (c :: cs) →
        (c :: cs).dropLast = a :: rest →
        calcControl (a :: rest) = (c :: cs).getLastD 0 →
        a ≠ address →
        pivReceive address frame = PivResult.badAddress) := by
  refine ⟨?_, ?_, ?_, ?_⟩
  · intro address p q
    have hlen : ¬ (p ++ 0xAC :: 0xAC :: q).length < 2 := by simp; omega
    unfold pivReceive
    rw [if_neg hlen, unescape_shift_overflow 0xAC (by omega) p q false]
  · intro address b p q hb
    have hlen : ¬ (p ++ 0xAC :: b :: q).length < 2 := by simp; omega
    unfold pivReceive
    rw [if_neg hlen, unescape_shift_overflow b hb p q false]
  · intro address frame c cs hlen hun hctl
    rw [pivReceive_eq address frame c cs hlen hun, if_pos hctl]
  · intro address frame c a cs rest hlen hun hdrop hctl haddr
    rw [pivReceive_eq address frame c cs hlen hun, hdrop]
    rw [if_neg (by rw [hctl]; simp)]
    simp [haddr]

/-- C4 counterexample: a SHIFT followed by the offset byte 0, whose
reconstructed value 0xAA lands back in the reserved set, is the valid escape
form for 0xAA and is accepted, not rejected: the frame decodes successfully
(address 0xAA, empty payload, control byte 0xAA). -/
theorem piv_decode_reserved_reconstruction_accepted :
    (0 + 0xAA) ∈ reservedBytes ∧ pivReceive 0xAA [0xAC, 0x00, 0xAA] = PivResult.ok [] := by
  constructor
  · decide
  · decide

/-- Witness for C4 at concrete inputs: a SHIFT before a literal STOP byte, and
a frame whose first reconstructed byte differs from the expected address. -/
theorem piv_decode_rejections_witness :
    pivReceive 0 [0xAC, 0xAB] = PivResult.invalidShift ∧
    pivReceive 1 [2, 3, 1] = PivResult.badAddress :=
  ⟨piv_decode_rejections.2.1 0 0xAB [] [] (by omega),
   piv_decode_rejections.2.2.2 1 [2, 3, 1] 2 2 [3, 1] [3]
     (by decide) (by decide) (by decide) (by decide) (by decide)⟩

theorem unescape_append_shift :
    ∀ (l : List Nat) (s : Bool) (r : List Nat),
      unescape l s = some r → (l = [] → s = false) → l.getLast? ≠ some 0xAC →
      unescape (l ++ [0xAC]) s = some r := by
  intro l
  induction l with
  | nil =>
    intro s r hu hnil _
    rw [hnil rfl] at hu ⊢
    rw [List.nil_append]
    exact hu
  | cons x t ih =>
    intro s r hu hnil hlast
    rw [List.cons_append]
    by_cases hx : x = 0xAC
    · subst hx
      cases s with
      | true => rw [unescape_cons_shift_bad] at hu; cases hu
      | false =>
        have ht : t ≠ [] := by
          intro h
          subst h
          simp at hlast
        have hlast2 : t.getLast? ≠ some 0xAC := by
          obtain ⟨y, t2, rfl⟩ := List.exists_cons_of_ne_nil ht
          rwa [List.getLast?_cons_cons] at hlast
        rw [unescape_cons_shift] at hu
        rw [unescape_cons_shift]
        exact ih true r hu (fun h => absurd h ht) hlast2
    · have hlast2 : t.getLast? ≠ some 0xAC := by
        cases t with
        | nil => simp
        | cons y t2 => rwa [List.getLast?_cons_cons] at hlast
      cases s with
      | false =>
        rw [unescape_cons_plain x t hx] at hu
        rw [unescape_cons_plain x (t ++ [0xAC]) hx]
        cases hut : unescape t false with
        | none => rw [hut] at hu; simp at hu
        | some r0 =>
          rw [hut] at hu
          rw [ih false r0 hut (fun _ => rfl) hlast2]
          exact hu
      | true =>
        by_cases hc : 255 < x + 0xAA ∨ x ∈ reservedBytes
        · rw [unescape_cons_esc_bad x t hx hc] at hu; cases hu
        · rw [unescape_cons_esc x t hx hc] at hu
          rw [unescape_cons_esc x (t ++ [0xAC]) hx hc]
          cases hut : unescape t false with
          | none => rw [hut] at hu; simp at hu
          | some r0 =>
            rw [hut] at hu
            rw [ih false r0 hut (fun _ => rfl) hlast2]
            exact hu

/-- C10 (amended): for every frame whose own last byte is not SHIFT and that
`Piv.receive` decodes successfully, the same frame with one extra SHIFT byte
appended (immediately before the STOP delimiter) also decodes successfully to
the same payload — the dangling escape is silently ignored.  (If the frame
already ends in SHIFT, the appended SHIFT is instead rejected as an invalid
double shift, refuting the unrestricted claim.) -/
theorem piv_dangling_shift (address : Nat) (frame payload : List Nat)
    (hok : pivReceive address frame = PivResult.ok payload)
    (hlast : frame.getLast? ≠ some 0xAC) :
    pivReceive address (frame ++ [0xAC]) = PivResult.ok payload := by
  by_cases hlen : frame.length < 2
  · have hx : pivReceive address frame = PivResult.tooShort := by
      unfold pivReceive; rw [if_pos hlen]
    rw [hx] at hok; cases hok
  cases hun : unescape frame false with
  | none =>
    have hx : pivReceive address frame = PivResult.invalidShift := by
      unfold pivReceive; rw [if_neg hlen, hun]
    rw [hx] at hok; cases hok
  | some conv =>
    cases conv with
    | nil =>
      have hx : pivReceive address frame = PivResult.crash := by
        unfold pivReceive; rw [if_neg hlen, hun]
      rw [hx] at hok; cases hok
    | cons c cs =>
      have heq := pivReceive_eq address frame c cs hlen hun
      by_cases hctl : calcControl ((c :: cs).dropLast) ≠ (c :: cs).getLastD 0
      · rw [heq, if_pos hctl] at hok; cases hok
      · have hlen2 : ¬ (frame ++ [0xAC]).length < 2 := by
          simp only [List.length_append, List.length_cons, List.length_nil]
          omega
        have hun2 : unescape (frame ++ [0xAC]) false = some (c :: cs) :=
          unescape_append_shift frame false (c :: cs) hun (fun _ => rfl) hlast
        have heq2 := pivReceive_eq address (frame ++ [0xAC]) c cs hlen2 hun2
        rw [heq, if_neg hctl] at hok
        rw [heq2, if_neg hctl]
        exact hok

/-- C10 counterexample: the frame `[1, 1, SHIFT]` decodes successfully (its
dangling SHIFT is ignored), but appending one more SHIFT yields a double-shift
rejection, not the same successful decode the claim requires. -/
theorem piv_dangling_shift_cex :
    pivReceive 1 [1, 1, 0xAC] = PivResult.ok [] ∧
    pivReceive 1 [1, 1, 0xAC, 0xAC] = PivResult.invalidShift := by
  constructor
  · decide
  · decide

/-- Witness for C10 on the frame `[1, 1]` (address 1, empty payload). -/
theorem piv_dangling_shift_witness :
    pivReceive 1 ([1, 1] ++ [0xAC]) = PivResult.ok [] :=
  piv_dangling_shift 1 [1, 1] [] (by decide) (by decide)

/-- The delimiter scan of `processBuf` inside `Line.readline`
(src/line.py lines 72-78): find the first occurrence of the delimiter byte;
on a hit return the bytes before it together with the buffer contents after
it, else nothing.  Both protocol clients use one-byte delimiters
(`b"\r"` and the Piv STOP byte `0xAB`). -/
def processBuf (delim : Nat) : List Nat → Option (List Nat × List Nat)
  | [] => none
  | b :: rest =>
    if b = delim then some ([], rest)
    else (processBuf delim rest).map (fun p => (b :: p.1, p.2))

/-- One invocation of `tryReadLine` (src/line.py lines 71-83), given the chunk
of bytes that `readWithTimeout` delivers on this attempt: extract a frame from
the buffer; a nonempty frame is returned at once, while `None` or an empty
frame (Python truthiness — the empty frame and its delimiter having already
been trimmed) leads to one raw read and a second extraction whose result is
returned as is. -/
def tryReadLine (delim : Nat) (buf chunk : List Nat) : Option (List Nat) × List Nat :=
  match processBuf delim buf with
  | some (l, rest) =>
    if l ≠ [] then (some l, rest)
    else
      match processBuf delim (rest ++ chunk) with
      | some p2 => (some p2.1, p2.2)
      | none => (none, rest ++ chunk)
  | none =>
    match processBuf delim (buf ++ chunk) with
    | some p2 => (some p2.1, p2.2)
    | none => (none, buf ++ chunk)

/-- The `tryUntilTimeout` loop as used by `Line.readline` (src/line.py
line 84), with time abstracted: each attempt consumes the next chunk of
arriving bytes; a truthy (nonempty) frame returns immediately; when the
listed chunks are exhausted the deadline has passed, so one final attempt is
made with no arriving data and the last (falsy) result is returned. -/
def readlineLoop (delim : Nat) : List Nat → List (List Nat) → Option (List Nat) × List Nat
  | buf, [] => tryReadLine delim buf []
  | buf, c :: rest =>
    match tryReadLine delim buf c with
    | (some l, buf2) => if l ≠ [] then (some l, buf2) else readlineLoop delim buf2 rest
    | (none, buf2) => readlineLoop delim buf2 rest

inductive ReadlineResult where
  | line (l : List Nat)
  | timeout (bufferContents : List Nat)
deriving DecidableEq

/-- `Line.readline` (src/line.py lines 69-87): run the retry loop; a falsy
final result (`None` or an empty frame) raises `Timeout` carrying the
buffer's current contents.  The second component is the receive buffer
(`self.__buffer__`) after the call, threaded into the next call. -/
def readline (delim : Nat) (buf : List Nat) (chunks : List (List Nat)) :
    ReadlineResult × List Nat :=
  match readlineLoop delim buf chunks with
  | (some l, buf2) => if l ≠ [] then (.line l, buf2) else (.timeout buf2, buf2)
  | (none, buf2) => (.timeout buf2, buf2)

/-- C3 (amended): `readline` returns a delimiter-terminated frame, trimming it
and the delimiter from the buffer front, whenever the first frame in the
buffer is nonempty; it never returns an empty frame — a delimiter at the
front of the buffer is silently consumed and skipped, so a Timeout can be
raised even though a delimiter was found (witnessed by the delimiter-only
buffer); the Timeout always carries the buffer's current contents. -/
theorem readline_framing :
    (∀ (delim : Nat) (buf : List Nat) (chunks : List (List Nat)) (l rest : List Nat),
        processBuf delim buf = some (l, rest) → l ≠ [] →
        readline delim buf chunks = (.line l, rest)) ∧
    (∀ (delim : Nat) (buf : List Nat) (chunks : List (List Nat)) (l buf2 : List Nat),
        readline delim buf chunks = (.line l, buf2) → l ≠ []) ∧
    (∀ (delim : Nat) (buf : List Nat) (chunks : List (List Nat)) (b buf2 : List Nat),
        readline delim buf chunks = (.timeout b, buf2) → b = buf2) ∧
    readline 13 [13] [] = (.timeout [], []) := by
  refine ⟨?_, ?_, ?_, by decide⟩
  · intro delim buf chunks l rest hpb hl
    have htr : ∀ chunk, tryReadLine delim buf chunk = (some l, rest) := by
      intro chunk
      unfold tryReadLine
      rw [hpb]
      simp [hl]
    cases chunks with
    | nil =>
      unfold readline readlineLoop
      rw [htr []]
      simp [hl]
    | cons c cr =>
      unfold readline readlineLoop
      rw [htr c]
      simp [hl]
  · intro delim buf chunks l buf2 h
    unfold readline at h
    rcases hloop : readlineLoop delim buf chunks with ⟨ol, b2⟩
    rw [hloop] at h
    cases ol with
    | none => simp at h
    | some l0 =>
      by_cases hl0 : l0 = []
      · simp [hl0] at h
      · simp [hl0] at h
        rw [← h.1]
        exact hl0
  · intro delim buf chunks b buf2 h
    unfold readline at h
    rcases hloop : readlineLoop delim buf chunks with ⟨ol, b2⟩
    rw [hloop] at h
    cases ol with
    | none =>
      simp at h
      rw [← h.1, ← h.2]
    | some l0 =>
      by_cases hl0 : l0 = []
      · simp [hl0] at h
        rw [← h.1, ← h.2]
      · simp [hl0] at h

/-- C3 counterexample: with only the delimiter in the buffer a delimiter is
present before the deadline and the claim demands the (empty) frame back, but
`readline` instead consumes the delimiter and raises Timeout. -/
theorem readline_empty_frame_cex :
    (13 ∈ ([13] : List Nat)) ∧ readline 13 [13] [] = (.timeout [], []) := by
  constructor
  · decide
  · decide

/-- Witness for C3 on a buffer holding a complete nonempty frame. -/
theorem readline_framing_witness :
    readline 13 [65, 13] [] = (ReadlineResult.line [65], []) :=
  readline_framing.1 13 [65, 13] [] [65] [] (by decide) (by decide)

/-- C5: feeding the transport the bytes of "AB\rCD\rEF" one byte at a time
(delimiter `\r` = 13), successive `readline` calls — each starting from the
buffer the previous call left behind — return frame "AB", then frame "CD",
then raise Timeout at the deadline with "EF" retained in the buffer, and a
further call after the delimiter arrives returns "EF"; bytes beyond the first
delimiter are never discarded between calls. -/
theorem readline_pipelining :
    readline 13 [] [[65], [66], [13]] = (.line [65, 66], []) ∧
    readline 13 [] [[67], [68], [13]] = (.line [67, 68], []) ∧
    readline 13 [] [[69], [70]] = (.timeout [69, 70], [69, 70]) ∧
    readline 13 [69, 70] [[13]] = (.line [69, 70], []) := by
  refine ⟨?_, ?_, ?_, ?_⟩ <;> decide

/-- `tryUntilTimeout` (src/line.py lines 15-31) with time made explicit:
`timeout0` is the timeout given at entry (fixing the absolute deadline), the
running argument `t` is the value passed to the action, and `clock` lists the
elapsed time since entry observed at each deadline check; the loop exits as
soon as the action's result is truthy or the recomputed remaining time
`timeout0 - e` is strictly negative (when the listed clock readings are
exhausted the deadline is treated as passed and the last result returned). -/
def tutGo {α : Type} (action : Int → α) (truthy : α → Bool) (timeout0 : Int) :
    Int → List Int → α
  | t, [] => action t
  | t, e :: rest =>
    if truthy (action t) then action t
    else if timeout0 - e < 0 then action t
    else tutGo action truthy timeout0 (timeout0 - e) rest

def tryUntilTimeout {α : Type} (action : Int → α) (truthy : α → Bool)
    (timeout : Int) (clock : List Int) : α :=
  tutGo action truthy timeout timeout clock

/-- Instrumentation of the same loop: the results of the successive action
invocations performed by `tryUntilTimeout`, in order. -/
def tutTraceGo {α : Type} (action : Int → α) (truthy : α → Bool) (timeout0 : Int) :
    Int → List Int → List α
  | t, [] => [action t]
  | t, e :: rest =>
    if truthy (action t) then [action t]
    else if timeout0 - e < 0 then [action t]
    else action t :: tutTraceGo action truthy timeout0 (timeout0 - e) rest

def tutTrace {α : Type} (action : Int → α) (truthy : α → Bool)
    (timeout : Int) (clock : List Int) : List α :=
  tutTraceGo action truthy timeout timeout clock

theorem tutTraceGo_ne_nil {α : Type} (action : Int → α) (truthy : α → Bool)
    (timeout0 t : Int) (clock : List Int) :
    tutTraceGo action truthy timeout0 t clock ≠ [] := by
  cases clock with
  | nil => simp [tutTraceGo]
  | cons e rest =>
    simp only [tutTraceGo]
    split
    · simp
    · split
      · simp
      · simp

/-- C8 (amended): the action is never skipped — at least one invocation always
happens; and it is invoked exactly once when its first result is truthy or
when the first recomputed remaining time is strictly negative (in particular
for any negative timeout).  A first remaining time of exactly zero is NOT
sufficient: the deadline check is strict, so the loop then runs another
attempt. -/
theorem tryUntilTimeout_attempts {α : Type} (action : Int → α) (truthy : α → Bool)
    (timeout : Int) (clock : List Int) :
    1 ≤ (tutTrace action truthy timeout clock).length ∧
    (truthy (action timeout) = true → (tutTrace action truthy timeout clock).length = 1) ∧
    (∀ (e : Int) (rest : List Int), clock = e :: rest → timeout - e < 0 →
        (tutTrace action truthy timeout clock).length = 1) := by
  refine ⟨?_, ?_, ?_⟩
  · exact List.length_pos.mpr (tutTraceGo_ne_nil action truthy timeout timeout clock)
  · intro ht
    cases clock with
    | nil => simp [tutTrace, tutTraceGo]
    | cons e rest => simp [tutTrace, tutTraceGo, ht]
  · intro e rest hclock hneg
    subst hclock
    cases ht : truthy (action timeout) with
    | true => simp [tutTrace, tutTraceGo, ht]
    | false => simp [tutTrace, tutTraceGo, ht, hneg]

/-- C8 counterexample: with timeout 0 and zero elapsed time the first
recomputed remaining time is 0 — non-positive, the deadline already reached —
yet the strict `< 0` check lets the loop invoke the falsy action a second
time: two invocations, not exactly one. -/
theorem tryUntilTimeout_zero_twice :
    ((0 : Int) - 0 ≤ 0) ∧
    (tutTrace (fun _ => (0 : Nat)) (fun n => n != 0) 0 [0]).length = 2 := by
  constructor
  · decide
  · rfl

/-- Witness for C8 with a negative timeout: exactly one attempt. -/
theorem tryUntilTimeout_attempts_witness :
    (tutTrace (fun _ => (0 : Nat)) (fun n => n != 0) (-1) [0, 5]).length = 1 :=
  (tryUntilTimeout_attempts (fun _ => (0 : Nat)) (fun n => n != 0) (-1) [0, 5]).2.2
    0 [5] rfl (by decide)

theorem tutTraceGo_spec {α : Type} (action : Int → α) (truthy : α → Bool)
    (timeout0 : Int) :
    ∀ (clock : List Int) (t : Int),
      (tutTraceGo action truthy timeout0 t clock).getLast?
          = some (tutGo action truthy timeout0 t clock) ∧
      (tutTraceGo action truthy timeout0 t clock).dropLast.all
          (fun r => !(truthy r)) = true := by
  intro clock
  induction clock with
  | nil => intro t; simp [tutTraceGo, tutGo]
  | cons e rest ih =>
    intro t
    cases ht : truthy (action t) with
    | true => simp [tutTraceGo, tutGo, ht]
    | false =>
      by_cases hneg : timeout0 - e < 0
      · simp [tutTraceGo, tutGo, ht, hneg]
      · have ihr := ih (timeout0 - e)
        have hstep : tutTraceGo action truthy timeout0 t (e :: rest)
            = action t :: tutTraceGo action truthy timeout0 (timeout0 - e) rest := by
          simp [tutTraceGo, ht, hneg]
        have hstep2 : tutGo action truthy timeout0 t (e :: rest)
            = tutGo action truthy timeout0 (timeout0 - e) rest := by
          simp [tutGo, ht, hneg]
        have hne := tutTraceGo_ne_nil action truthy timeout0 (timeout0 - e) rest
        obtain ⟨x, xs, hxx⟩ := List.exists_cons_of_ne_nil hne
        constructor
        · rw [hstep, hstep2, hxx, List.getLast?_cons_cons, ← hxx]
          exact ihr.1
        · rw [hstep, List.dropLast_cons_of_ne_nil hne, List.all_cons]
          rw [ihr.2, ht]
          rfl

/-- C9: `tryUntilTimeout` returns exactly the value produced by the last
invocation of the action: every invocation before the last one produced a
falsy result (so a truthy result is returned as soon as it is produced), and
when the deadline expires the final falsy sentinel itself is returned — never
a substituted value. -/
theorem tryUntilTimeout_passthrough {α : Type} (action : Int → α) (truthy : α → Bool)
    (timeout : Int) (clock : List Int) :
    (tutTrace action truthy timeout clock).getLast?
        = some (tryUntilTimeout action truthy timeout clock) ∧
    (tutTrace action truthy timeout clock).dropLast.all (fun r => !(truthy r)) = true :=
  tutTraceGo_spec action truthy timeout clock timeout

/-- Uppercase hexadecimal digit of a value below 16, as its ASCII byte
(the `"%02X"` rendering in `AdamModule.__init__`, src/adam.py line 42). -/
def hexDigit (n : Nat) : Nat := if n < 10 then 48 + n else 55 + n

/-- The 2-uppercase-hex-digit ASCII address bytes (`self.__address__`). -/
def hexAddr (address : Nat) : List Nat := [hexDigit (address / 16), hexDigit (address % 16)]

inductive QueryResult where
  | ok (payload : List Nat)
  | badReply (request reply : List Nat)
deriving DecidableEq

/-- Validation part of `AdamModule.query` (src/adam.py lines 59-65) applied to
the reply frame: too short, missing leading `!`, or address mismatch fail
with `BadReply` carrying the request and the raw reply; otherwise the bytes
after the first three are the payload.  The request is `$` + 2-hex address +
command (line 48). -/
def adamQueryCheck (address : Nat) (command line : List Nat) : QueryResult :=
  let request := (36 :: hexAddr address) ++ command
  if line.length < 3 then .badReply request line
  else if line.take 1 ≠ [33] then .badReply request line
  else if (line.drop 1).take 2 ≠ hexAddr address then .badReply request line
  else .ok (line.drop 3)

/-- C6: `AdamModule.query` fails with a reply error carrying the original
request and the raw reply exactly when the reply frame is shorter than 3
bytes, does not start with `!`, or its next two bytes differ from the
2-uppercase-hex-digit address; otherwise it returns the bytes after the first
three (request "$01M" against reply "!014068" at address 1 yields "4068"). -/
theorem adam_query_validation (address : Nat) (command line : List Nat)
    (haddr : address < 256) :
    (adamQueryCheck address command line
      = if line.length < 3 ∨ line.take 1 ≠ [33] ∨ (line.drop 1).take 2 ≠ hexAddr address
        then QueryResult.badReply ((36 :: hexAddr address) ++ command) line
        else QueryResult.ok (line.drop 3)) ∧
    adamQueryCheck 1 [77] [33, 48, 49, 52, 48, 54, 56] = QueryResult.ok [52, 48, 54, 56] := by
  constructor
  · unfold adamQueryCheck
    by_cases h1 : line.length < 3
    · simp [h1]
    · by_cases h2 : line.take 1 ≠ [33]
      · simp [h1, h2]
      · by_cases h3 : (line.drop 1).take 2 ≠ hexAddr address
        · simp [h1, h2, h3]
        · simp [h1, h2, h3]
  · decide

/-- Witness for C6: the spec's own example exchange. -/
theorem adam_query_validation_witness :
    adamQueryCheck 1 [77] [33, 48, 49, 52, 48, 54, 56] = QueryResult.ok [52, 48, 54, 56] :=
  (adam_query_validation 1 [77] [33, 48, 49, 52, 48, 54, 56] (by omega)).2

inductive WriteResult where
  | okW
  | wrongAddress
  | wrongData
  | rejected
  | unknownReply
deriving DecidableEq

/-- Reply handling of `AdamModule.write` (src/adam.py lines 78-89) on the
reply frame, with `data` the bytes that were sent: `>` alone succeeds; a `!`
reply must carry the module address, succeeds when exactly 3 bytes long, and
fails with a data mismatch when the trailing bytes differ from `data`; a `?`
reply is the device rejection; anything else — including, through the missing
early return after the data comparison, a `!` reply whose trailing bytes DO
equal `data` — reaches the unconditional "unknown reply type" error. -/
def adamWriteCheck (address : Nat) (data line : List Nat) : WriteResult :=
  if line = [62] then .okW
  else if line.take 1 = [33] then
    if (line.drop 1).take 2 ≠ hexAddr address then .wrongAddress
    else if line.length = 3 then .okW
    else if line.drop 3 ≠ data then .wrongData
    else .unknownReply
  else if line.take 1 = [63] then .rejected
  else .unknownReply

/-- C2 (code bug): with address 1 and sent data "ABC", the echoed reply frame
"!01ABC" — `!` + the 2-hex address + trailing bytes exactly equal to the sent
data — does not succeed as the spec requires: the missing early return in
`AdamModule.write` falls through to the unconditional "unknown reply type"
`BadReply`.  The neighbouring cases behave as specified: "!01" succeeds and a
differing echo "!01XYZ" fails with the data-mismatch error. -/
theorem adam_write_echo_fallthrough :
    adamWriteCheck 1 [65, 66, 67] [33, 48, 49, 65, 66, 67] = WriteResult.unknownReply ∧
    adamWriteCheck 1 [65, 66, 67] [33, 48, 49] = WriteResult.okW ∧
    adamWriteCheck 1 [65, 66, 67] [33, 48, 49, 88, 89, 90] = WriteResult.wrongData := by
  refine ⟨?_, ?_, ?_⟩ <;> decide

/-- Events on the shared line: guard acquire/release, request write, reply
read attempt. -/
inductive Ev where
  | acq
  | rel
  | wr
  | rd
deriving DecidableEq

/-- State of the shared line: whether its `Lock` is held, and the trace of
events so far. -/
structure LineSt where
  locked : Bool
  events : List Ev
deriving DecidableEq

/-- State-and-error monad over the shared line, mirroring Python control
flow: a computation maps the line state to an `Except` result and the new
state; `mThrow` models `raise`, `mTryFinally` models `try/finally`,
`mTryCatch` models `try/except`. -/
def M (ε α : Type) : Type := LineSt → Except ε α × LineSt

def mPure {ε α : Type} (a : α) : M ε α := fun s => (.ok a, s)

def mThrow {ε α : Type} (e : ε) : M ε α := fun s => (.error e, s)

def mLift {ε α : Type} (x : Except ε α) : M ε α := fun s => (x, s)

def mBind {ε α β : Type} (x : M ε α) (f : α → M ε β) : M ε β := fun s =>
  match x s with
  | (.ok a, s2) => f a s2
  | (.error e, s2) => (.error e, s2)

def mTryFinally {ε α : Type} (body : M ε α) (finalizer : M ε Unit) : M ε α := fun s =>
  match body s with
  | (r, s2) =>
    match finalizer s2 with
    | (.ok _, s3) => (r, s3)
    | (.error e, s3) => (.error e, s3)

def mTryCatch {ε α : Type} (body : M ε α) (handler : ε → M ε α) : M ε α := fun s =>
  match body s with
  | (.ok a, s2) => (.ok a, s2)
  | (.error e, s2) => handler e s2

/-- `self.__line__.lock.acquire()`: takes the guard, recording the event. -/
def mAcquire {ε : Type} : M ε Unit := fun s =>
  (.ok (), ⟨true, s.events ++ [Ev.acq]⟩)

/-- `self.__line__.lock.release()`: releases the guard, recording the event. -/
def mRelease {ε : Type} : M ε Unit := fun s =>
  (.ok (), ⟨false, s.events ++ [Ev.rel]⟩)

/-- `line.write(data)` with its outcome (success or a transport error)
supplied externally; records the write event. -/
def mWriteOp {ε : Type} (data : List Nat) (wo : Except ε Unit) : M ε Unit := fun s =>
  (wo, ⟨s.locked, s.events ++ [Ev.wr]⟩)

/-- `line.readline(timeout)` with its outcome (a frame, a timeout, or a
transport error) supplied externally; records the read attempt. -/
def mReadOp {ε : Type} (ro : Except ε (List Nat)) : M ε (List Nat) := fun s =>
  (ro, ⟨s.locked, s.events ++ [Ev.rd]⟩)

inductive AdamErr where
  | timeoutE (request : List Nat)
  | badReply (request reply : List Nat)
  | writeFail (r : WriteResult)
  | transport
deriving DecidableEq

/-- The `except Timeout as e: raise Timeout(...)` handler in `AdamModule.query`
and `AdamModule.write` (src/adam.py lines 54-55 and 74-75): a timeout is
re-raised as a new timeout naming the request; other errors propagate. -/
def adamCatchTimeout (request : List Nat) : AdamErr → M AdamErr (List Nat)
  | .timeoutE _ => mThrow (.timeoutE request)
  | e => mThrow e

def queryValidateE (address : Nat) (command line : List Nat) : Except AdamErr (List Nat) :=
  match adamQueryCheck address command line with
  | .ok p => .ok p
  | .badReply rq rp => .error (.badReply rq rp)

def writeValidateE (r : WriteResult) : Except AdamErr Unit :=
  match r with
  | .okW => .ok ()
  | r2 => .error (.writeFail r2)

/-- `AdamModule.query` (src/adam.py lines 45-65): guard acquired before the
request is written; `try/finally` releases it after the read (the inner
`try/except` re-raising timeouts); reply validation runs after release. -/
def adamQueryOp (address : Nat) (command : List Nat)
    (wo : Except AdamErr Unit) (ro : Except AdamErr (List Nat)) : M AdamErr (List Nat) :=
  let request := (36 :: hexAddr address) ++ command
  mBind mAcquire (fun _ =>
    mBind
      (mTryFinally
        (mBind (mWriteOp (request ++ [13]) wo) (fun _ =>
          mTryCatch (mReadOp ro) (adamCatchTimeout request)))
        mRelease)
      (fun line => mLift (queryValidateE address command line)))

/-- `AdamModule.write` (src/adam.py lines 66-89): guard acquired before the
write; one `try` covers write+read with the timeout-re-raise handler and a
`finally` release; the reply check (buggy fall-through included) runs after
release. -/
def adamWriteOp (address : Nat) (data : List Nat)
    (wo : Except AdamErr Unit) (ro : Except AdamErr (List Nat)) : M AdamErr Unit :=
  let request := (35 :: hexAddr address) ++ data
  mBind mAcquire (fun _ =>
    mBind
      (mTryFinally
        (mTryCatch
          (mBind (mWriteOp (request ++ [13]) wo) (fun _ => mReadOp ro))
          (adamCatchTimeout request))
        mRelease)
      (fun line => mLift (writeValidateE (adamWriteCheck address data line))))

inductive PivErr where
  | timeoutE
  | badPacket (r : PivResult)
  | transport
deriving DecidableEq

def pivDecodeE (address : Nat) (frame : List Nat) : Except PivErr (List Nat) :=
  match pivReceive address frame with
  | .ok p => .ok p
  | r => .error (.badPacket r)

/-- `Piv.query` (src/piv.py lines 89-95): guard acquired, then `try: send;
return receive finally: release`; the decode — and its possible
`BadPivPacket` — happens inside the guarded span. -/
def pivQueryOp (address : Nat) (request : List Nat)
    (wo : Except PivErr Unit) (ro : Except PivErr (List Nat)) : M PivErr (List Nat) :=
  mBind mAcquire (fun _ =>
    mTryFinally
      (mBind (mWriteOp (pivSend address request) wo) (fun _ =>
        mBind (mReadOp ro) (fun frame => mLift (pivDecodeE address frame))))
      mRelease)

/-- A completed exchange left the guard released and produced exactly the
event sequence acquire, write, (read when the write succeeded), release: the
guard is taken before the request bytes go out, held through the read of the
reply, and released exactly once on every exit path. -/
def goodRun {ε α : Type} (out : Except ε α × LineSt) : Prop :=
  out.2.locked = false ∧
  (out.2.events = [Ev.acq, Ev.wr, Ev.rd, Ev.rel] ∨ out.2.events = [Ev.acq, Ev.wr, Ev.rel])

/-- C7: for every call to `AdamModule.query`, `AdamModule.write` and
`Piv.query`, under every outcome of the transport write and of the read
(success, timeout, transport or validation error) and every reply content,
the guard is acquired before the request is written, held through the read,
and released exactly once whether the call returns normally or raises; after
the call the guard is back in the released state. -/
theorem guard_discipline (address : Nat) (command data request : List Nat)
    (wo : Except AdamErr Unit) (ro : Except AdamErr (List Nat))
    (wo2 : Except PivErr Unit) (ro2 : Except PivErr (List Nat)) :
    goodRun (adamQueryOp address command wo ro ⟨false, []⟩) ∧
    goodRun (adamWriteOp address data wo ro ⟨false, []⟩) ∧
    goodRun (pivQueryOp address request wo2 ro2 ⟨false, []⟩) := by
  refine ⟨?_, ?_, ?_⟩
  · rcases wo with we | wu
    · cases we <;>
        simp [adamQueryOp, goodRun, mBind, mTryFinally, mTryCatch, mAcquire, mRelease,
          mWriteOp, mReadOp, mLift, mThrow, adamCatchTimeout]
    · rcases ro with re | line
      · cases re <;>
          simp [adamQueryOp, goodRun, mBind, mTryFinally, mTryCatch, mAcquire, mRelease,
            mWriteOp, mReadOp, mLift, mThrow, adamCatchTimeout]
      · simp [adamQueryOp, goodRun, mBind, mTryFinally, mTryCatch, mAcquire, mRelease,
          mWriteOp, mReadOp, mLift, mThrow, adamCatchTimeout]
  · rcases wo with we | wu
    · cases we <;>
        simp [adamWriteOp, goodRun, mBind, mTryFinally, mTryCatch, mAcquire, mRelease,
          mWriteOp, mReadOp, mLift, mThrow, adamCatchTimeout]
    · rcases ro with re | line
      · cases re <;>
          simp [adamWriteOp, goodRun, mBind, mTryFinally, mTryCatch, mAcquire, mRelease,
            mWriteOp, mReadOp, mLift, mThrow, adamCatchTimeout]
      · simp [adamWriteOp, goodRun, mBind, mTryFinally, mTryCatch, mAcquire, mRelease,
          mWriteOp, mReadOp, mLift, mThrow, adamCatchTimeout]
  · rcases wo2 with we | wu
    · simp [pivQueryOp, goodRun, mBind, mTryFinally, mTryCatch, mAcquire, mRelease,
        mWriteOp, mReadOp, mLift, mThrow]
    · rcases ro2 with re | frame
      · simp [pivQueryOp, goodRun, mBind, mTryFinally, mTryCatch, mAcquire, mRelease,
          mWriteOp, mReadOp, mLift, mThrow]
      · simp [pivQueryOp, goodRun, mBind, mTryFinally, mTryCatch, mAcquire, mRelease,
          mWriteOp, mReadOp, mLift, mThrow]

end RS485
